import Mathlib

/-!
Shallow embedding of `src/utils/local-rest-api.ts` from the obsidian-clipper
repository: the Local REST API note-placement engine (availability gate,
connection test, existence prober, collision-avoidance namer, and the
create-note state machine), together with theorems settling the claims
about it.

The network is modelled as an oracle `net : Request → FetchOutcome` carried
in an `Env`; every embedded function returns, alongside its result, the list
of HTTP requests it issued, in order of issuance.  `Env.today` stands for
the string computed by `new Date().toISOString().split('T')[0]` (today's UTC
calendar date, YYYY-MM-DD) and `Env.nowMillis` for `Date.now()`.
-/

/-- `response.ok` of the fetch API: status in the 2xx success range. -/
def responseOk (status : Nat) : Bool :=
  200 ≤ status && status < 300

/-- Uppercase hexadecimal digit, used by percent-encoding. -/
def upperHexDigit (n : Nat) : Char :=
  if n < 10 then Char.ofNat (48 + n) else Char.ofNat (55 + n)

/-- Lowercase hexadecimal digit, used by JSON control-character escapes. -/
def lowerHexDigit (n : Nat) : Char :=
  if n < 10 then Char.ofNat (48 + n) else Char.ofNat (87 + n)

/-- Percent-encoding of one byte, uppercase as `encodeURIComponent` emits. -/
def percentEncodeByte (b : Nat) : String :=
  String.mk ['%', upperHexDigit (b / 16), upperHexDigit (b % 16)]

/-- UTF-8 byte values of a character, as `encodeURIComponent` encodes them. -/
def utf8ByteValues (c : Char) : List Nat :=
  let n := c.toNat
  if n < 128 then [n]
  else if n < 2048 then [192 + n / 64, 128 + n % 64]
  else if n < 65536 then [224 + n / 4096, 128 + n / 64 % 64, 128 + n % 64]
  else [240 + n / 262144, 128 + n / 4096 % 64, 128 + n / 64 % 64, 128 + n % 64]

/-- Characters `encodeURIComponent` leaves unescaped:
ASCII alphanumerics and `-_.!~*()` and the apostrophe (code 39). -/
def isUriUnreserved (c : Char) : Bool :=
  c.isAlpha || c.isDigit || c = '-' || c = '_' || c = '.' || c = '!' ||
    c = '~' || c = '*' || c = Char.ofNat 39 || c = '(' || c = ')'

/-- JavaScript `encodeURIComponent`. -/
def encodeURIComponent (s : String) : String :=
  s.data.foldl
    (fun acc c =>
      if isUriUnreserved c then acc.push c
      else acc ++ ((utf8ByteValues c).map percentEncodeByte).foldl (fun a b => a ++ b) "")
    ""

/-- JavaScript `s.endsWith(c)` for a single-character suffix:
the last character of `s` is `c`. -/
def lastCharIs (s : String) (c : Char) : Bool :=
  match s.data.getLast? with
  | some d => d = c
  | none => false

/-- JavaScript `s.startsWith(c)` for a single-character prefix:
the first character of `s` is `c`. -/
def startsWithChar (s : String) (c : Char) : Bool :=
  match s.data with
  | [] => false
  | d :: _ => d = c

/-- The left-brace character, written by code point to keep it out of
string literals. -/
def leftBrace : Char := Char.ofNat 123

/-- One character of a JSON string literal, escaped as `JSON.stringify`
escapes it. -/
def jsonEscapeChar (c : Char) : String :=
  if c = '"' then "\\\""
  else if c = '\\' then "\\\\"
  else if c = Char.ofNat 8 then "\\b"
  else if c = Char.ofNat 9 then "\\t"
  else if c = Char.ofNat 10 then "\\n"
  else if c = Char.ofNat 12 then "\\f"
  else if c = Char.ofNat 13 then "\\r"
  else if c.toNat < 32 then
    "\\u00" ++ String.mk [lowerHexDigit (c.toNat / 16), lowerHexDigit (c.toNat % 16)]
  else String.singleton c

/-- A JSON string literal for `s`, as `JSON.stringify` renders it. -/
def jsonQuote (s : String) : String :=
  "\"" ++ (s.data.map jsonEscapeChar).foldl (fun a b => a ++ b) "" ++ "\""

/-- `JSON.stringify({content: ..., position: ...})` — the partial-update
envelope the PATCH branches send. -/
def patchBody (content position : String) : String :=
  "\x7b\"content\":" ++ jsonQuote content ++ ",\"position\":" ++ jsonQuote position ++ "\x7d"

/-- Modelled from the spec: the repository's `sanitizeFileName`
(`src/utils/string-utils`, not included under `src/`) removes characters
illegal in the remote filesystem from the note base name.  We take the
illegal set to be the usual forbidden filename characters plus ASCII
control characters. -/
def sanitizeFileName (name : String) : String :=
  String.mk (name.data.filter
    (fun c => !(c ∈ ['/', '\\', ':', '*', '?', '"', '<', '>', '|']) && 32 ≤ c.toNat))

/-- The configuration snapshot read from `generalSettings`. -/
structure Settings where
  localRestApiEnabled : Bool
  localRestApiUrl : String
  localRestApiKey : String
deriving Repr, DecidableEq

/-- The caller-declared save behavior (`Template['behavior']`). -/
inductive Behavior where
  | create
  | appendSpecific
  | prependSpecific
  | overwrite
  | appendDaily
  | prependDaily
deriving Repr, DecidableEq

/-- One HTTP request as handed to `fetch`: URL, method, header list in
insertion order, and optional body. -/
structure Request where
  url : String
  method : String
  headers : List (String × String)
  body : Option String
deriving Repr, DecidableEq

/-- What `fetch` produces for a request: a response with a numeric status
and a body text, or a thrown transport-level error carrying a message. -/
inductive FetchOutcome where
  | response (status : Nat) (bodyText : String)
  | thrown (message : String)
deriving Repr, DecidableEq

/-- The ambient environment of one invocation: the configuration snapshot,
the network oracle, today's UTC calendar date string (YYYY-MM-DD), and the
current millisecond epoch timestamp. -/
structure Env where
  settings : Settings
  net : Request → FetchOutcome
  today : String
  nowMillis : Nat

/-- The result type returned to the caller. -/
structure LocalRestApiResponse where
  success : Bool
  error : Option String
deriving Repr, DecidableEq

/-- `isLocalRestApiAvailable`: pure configuration check — false when the
integration is disabled or the endpoint URL or API key is empty. -/
def isLocalRestApiAvailable (s : Settings) : Bool :=
  if !s.localRestApiEnabled then false
  else if s.localRestApiUrl.isEmpty || s.localRestApiKey.isEmpty then false
  else true

/-- The `Authorization: Bearer <key>` header every request carries. -/
def authHeaders (s : Settings) : List (String × String) :=
  [("Authorization", "Bearer " ++ s.localRestApiKey)]

/-- The URL-building logic shared by `checkFileExists` and the `buildUrl`
closure inside `createNoteViaLocalRestApi`: percent-encode the vault (when
non-empty) and the file path independently and join them under `/vault/`. -/
def buildUrl (s : Settings) (vault targetPath : String) : String :=
  if !vault.isEmpty then
    s.localRestApiUrl ++ "/vault/" ++ encodeURIComponent vault ++ "/" ++
      encodeURIComponent targetPath
  else
    s.localRestApiUrl ++ "/vault/" ++ encodeURIComponent targetPath

/-- The GET request `checkFileExists` issues against a target path. -/
def probeRequest (s : Settings) (vault filePath : String) : Request :=
  { url := buildUrl s vault filePath
    method := "GET"
    headers := authHeaders s
    body := none }

/-- The GET request `testLocalRestApiConnection` issues against the
service root. -/
def rootRequest (s : Settings) : Request :=
  { url := s.localRestApiUrl ++ "/"
    method := "GET"
    headers := authHeaders s
    body := none }

/-- `testLocalRestApiConnection`: one authenticated GET against the root,
with the outcome normalized into a `LocalRestApiResponse`. -/
def testLocalRestApiConnection (env : Env) : LocalRestApiResponse × List Request :=
  let req := rootRequest env.settings
  match env.net req with
  | .response status text =>
    if responseOk status then ({ success := true, error := none }, [req])
    else ({ success := false, error := some ("HTTP " ++ toString status ++ ": " ++ text) }, [req])
  | .thrown message => ({ success := false, error := some message }, [req])

/-- The output of one `checkFileExists` call: the boolean it returns, the
requests it issued, and the `console.warn` diagnostics it emitted. -/
structure ProbeOutput where
  found : Bool
  reqs : List Request
  warns : List String
deriving Repr, DecidableEq

/-- `checkFileExists`: authenticated GET on the target; 2xx means present,
404 means absent, any other status or a thrown transport error is treated
as absent after a `console.warn`. -/
def checkFileExists (env : Env) (vault filePath : String) : ProbeOutput :=
  let req := probeRequest env.settings vault filePath
  match env.net req with
  | .response status _ =>
    if responseOk status then { found := true, reqs := [req], warns := [] }
    else if status = 404 then { found := false, reqs := [req], warns := [] }
    else
      { found := false, reqs := [req]
        warns := ["Unexpected response when checking file existence: " ++ toString status] }
  | .thrown _ =>
    { found := false, reqs := [req], warns := ["Error checking file existence"] }

/-- The directory-path normalization at the top of
`createNoteViaLocalRestApi`: a non-empty path not already ending in a
slash gets exactly one slash appended. -/
def normalizeDirPath (path : String) : String :=
  if !path.isEmpty && !lastCharIs path '/' then path ++ "/" else path

/-- The candidate name `findAvailableFileName` tries for a given counter
value: `<path><baseName> <counter>.md`. -/
def candName (path baseName : String) (k : Nat) : String :=
  path ++ baseName ++ " " ++ toString k ++ ".md"

/-- The `while (counter < 1000)` loop of `findAvailableFileName`: probe
suffixed candidates in increasing order, returning the first one reported
absent; past the bound, return the timestamp-suffixed name without a
probe. -/
def findLoop (env : Env) (vault path baseName : String) (counter : Nat) :
    String × List Request :=
  if h : counter < 1000 then
    let filePath := path ++ baseName ++ " " ++ toString counter ++ ".md"
    let pr := checkFileExists env vault filePath
    if pr.found then
      let rest := findLoop env vault path baseName (counter + 1)
      (rest.1, pr.reqs ++ rest.2)
    else (filePath, pr.reqs)
  else (path ++ baseName ++ " " ++ toString env.nowMillis ++ ".md", [])
termination_by 1000 - counter
decreasing_by omega

/-- `findAvailableFileName`: return the unsuffixed candidate if absent,
otherwise enter the suffix loop. -/
def findAvailableFileName (env : Env) (vault path baseName : String) :
    String × List Request :=
  let filePath := path ++ baseName ++ ".md"
  let pr := checkFileExists env vault filePath
  if pr.found then
    let rest := findLoop env vault path baseName 1
    (rest.1, pr.reqs ++ rest.2)
  else (filePath, pr.reqs)

/-- The JavaScript content-type choice
`typeof body === 'string' && body.startsWith('{')`: all bodies in this
module are strings, so the test is whether the body starts with a left
brace. -/
def contentTypeFor (body : String) : String :=
  if startsWithChar body leftBrace then "application/json" else "text/markdown"

/-- The final mutating request `createNoteViaLocalRestApi` hands to
`fetch`: bearer credential plus the content-type chosen from the body. -/
def finalRequest (s : Settings) (url method body : String) : Request :=
  { url := url
    method := method
    headers := authHeaders s ++ [("Content-Type", contentTypeFor body)]
    body := some body }

/-- The `{url, method, body}` triple resolved by the behavior state
machine, together with the probe requests issued while resolving it. -/
structure Plan where
  url : String
  method : String
  body : String
  probes : List Request
deriving Repr, DecidableEq

/-- The behavior branch of `createNoteViaLocalRestApi` (the
`if (isDailyNote) ... else switch (behavior) ...` block), with `path`
already normalized and `formattedNoteName` already sanitized. -/
def resolvePlan (env : Env) (fileContent path formattedNoteName vault : String)
    (behavior : Behavior) : Plan :=
  match behavior with
  | .appendDaily | .prependDaily =>
    let dailyNotePath := env.today ++ ".md"
    let pr := checkFileExists env vault dailyNotePath
    let url := buildUrl env.settings vault dailyNotePath
    if !pr.found then
      { url := url, method := "POST", body := fileContent, probes := pr.reqs }
    else if behavior = .appendDaily then
      { url := url, method := "PATCH", body := patchBody fileContent "end", probes := pr.reqs }
    else
      { url := url, method := "PATCH", body := patchBody fileContent "start", probes := pr.reqs }
  | .appendSpecific =>
    let filePath := path ++ formattedNoteName ++ ".md"
    let pr := checkFileExists env vault filePath
    let url := buildUrl env.settings vault filePath
    if !pr.found then
      { url := url, method := "POST", body := fileContent, probes := pr.reqs }
    else
      { url := url, method := "PATCH", body := patchBody fileContent "end", probes := pr.reqs }
  | .prependSpecific =>
    let filePath := path ++ formattedNoteName ++ ".md"
    let pr := checkFileExists env vault filePath
    let url := buildUrl env.settings vault filePath
    if !pr.found then
      { url := url, method := "POST", body := fileContent, probes := pr.reqs }
    else
      { url := url, method := "PATCH", body := patchBody fileContent "start", probes := pr.reqs }
  | .overwrite =>
    let filePath := path ++ formattedNoteName ++ ".md"
    { url := buildUrl env.settings vault filePath, method := "PUT"
      body := fileContent, probes := [] }
  | .create =>
    let found := findAvailableFileName env vault path formattedNoteName
    { url := buildUrl env.settings vault found.1, method := "POST"
      body := fileContent, probes := found.2 }

/-- The outcome of one `createNoteViaLocalRestApi` call: the result
returned to the caller and every HTTP request issued, in order. -/
structure CallOutcome where
  result : LocalRestApiResponse
  requests : List Request
deriving Repr, DecidableEq

/-- `createNoteViaLocalRestApi`: gate, normalize, resolve the plan, issue
the final request, and normalize its outcome. -/
def createNoteViaLocalRestApi (env : Env) (fileContent noteName path vault : String)
    (behavior : Behavior) : CallOutcome :=
  if !isLocalRestApiAvailable env.settings then
    { result := { success := false, error := some "Local REST API not available" }
      requests := [] }
  else
    let path := normalizeDirPath path
    let formattedNoteName := sanitizeFileName noteName
    let plan := resolvePlan env fileContent path formattedNoteName vault behavior
    let finalReq := finalRequest env.settings plan.url plan.method plan.body
    let result : LocalRestApiResponse :=
      match env.net finalReq with
      | .response status text =>
        if responseOk status then { success := true, error := none }
        else { success := false, error := some ("HTTP " ++ toString status ++ ": " ++ text) }
      | .thrown message => { success := false, error := some message }
    { result := result, requests := plan.probes ++ [finalReq] }

/-- Follows the spec's words (§4.2/§4.6): the uniform normalization of a
request outcome into a result — 2xx yields success, any other status
yields failure with `HTTP <status>: <body text>`, a thrown transport error
yields failure with the error's message. -/
def specNormalizeOutcome : FetchOutcome → LocalRestApiResponse
  | .response status text =>
    if responseOk status then { success := true, error := none }
    else { success := false, error := some ("HTTP " ++ toString status ++ ": " ++ text) }
  | .thrown message => { success := false, error := some message }

/-! ### Helper lemmas -/

theorem checkFileExists_reqs (env : Env) (vault filePath : String) :
    (checkFileExists env vault filePath).reqs =
      [probeRequest env.settings vault filePath] := by
  unfold checkFileExists
  rcases h : env.net (probeRequest env.settings vault filePath) with ⟨s, t⟩ | m <;>
    simp [h] <;> split_ifs <;> rfl

/-! ### Concrete environments used by witnesses and counterexamples -/

/-- A concrete enabled configuration. -/
def wSettings : Settings :=
  { localRestApiEnabled := true, localRestApiUrl := "https://host", localRestApiKey := "key" }

/-- A network oracle reporting every probed file absent (404) and accepting
every write (200). -/
def absentNet : Request → FetchOutcome := fun r =>
  if r.method = "GET" then FetchOutcome.response 404 "Not Found"
  else FetchOutcome.response 200 "ok"

/-- A concrete environment where every probe reports absent. -/
def wEnv : Env := ⟨wSettings, absentNet, "2026-10-12", 7⟩

/-- A concrete environment with the integration disabled. -/
def offEnv : Env :=
  ⟨{ localRestApiEnabled := false, localRestApiUrl := "https://host", localRestApiKey := "key" },
   fun _ => FetchOutcome.response 200 "ok", "2026-10-12", 7⟩

/-- A concrete environment where every request gets a 500 response. -/
def w4Env : Env := ⟨wSettings, fun _ => FetchOutcome.response 500 "err", "2026-10-12", 7⟩

/-! ### Claim theorems -/

/-- Claim C3: whenever the availability gate reports false — which happens
exactly when the integration is disabled or the endpoint URL or the API key
is empty — `createNoteViaLocalRestApi` returns failure with a descriptive
error message and issues zero network requests. -/
theorem c3_gate_short_circuit (env : Env) (fileContent noteName path vault : String)
    (behavior : Behavior) (hgate : isLocalRestApiAvailable env.settings = false) :
    (isLocalRestApiAvailable env.settings = false ↔
      env.settings.localRestApiEnabled = false ∨ env.settings.localRestApiUrl = "" ∨
        env.settings.localRestApiKey = "") ∧
    createNoteViaLocalRestApi env fileContent noteName path vault behavior =
      { result := { success := false, error := some "Local REST API not available" }
        requests := [] } := by
  constructor
  · rcases hs : env.settings with ⟨e, u, k⟩
    cases e <;> by_cases hu : u = "" <;> by_cases hk : k = "" <;>
      simp [isLocalRestApiAvailable, hu, hk, String.isEmpty_iff]
  · simp [createNoteViaLocalRestApi, hgate]

/-- Claim C3 witness: with the integration disabled, the call fails with the
descriptive message and an empty request trace. -/
theorem c3_gate_short_circuit_witness :
    (isLocalRestApiAvailable offEnv.settings = false ↔
      offEnv.settings.localRestApiEnabled = false ∨ offEnv.settings.localRestApiUrl = "" ∨
        offEnv.settings.localRestApiKey = "") ∧
    createNoteViaLocalRestApi offEnv "body" "note" "dir" "v" Behavior.create =
      { result := { success := false, error := some "Local REST API not available" }
        requests := [] } :=
  c3_gate_short_circuit offEnv "body" "note" "dir" "v" Behavior.create (by decide)

/-- Claim C4: the existence prober returns true exactly when the GET
response status is 2xx; a 404 yields false with no diagnostic, any other
non-success status yields false after a diagnostic warning, and a thrown
transport error yields false after a diagnostic warning (the embedding is a
total function, so no exception propagates). -/
theorem c4_exists_prober (env : Env) (vault filePath : String) :
    (∀ status text,
        env.net (probeRequest env.settings vault filePath) =
            FetchOutcome.response status text →
        ((checkFileExists env vault filePath).found = responseOk status ∧
         (status = 404 → (checkFileExists env vault filePath).warns = []) ∧
         (responseOk status = false → status ≠ 404 →
           (checkFileExists env vault filePath).warns =
             ["Unexpected response when checking file existence: " ++ toString status]))) ∧
    (∀ message,
        env.net (probeRequest env.settings vault filePath) = FetchOutcome.thrown message →
        ((checkFileExists env vault filePath).found = false ∧
         (checkFileExists env vault filePath).warns = ["Error checking file existence"])) := by
  constructor
  · intro status text h
    simp only [checkFileExists, h]
    split_ifs with h1 h2 <;> simp_all
  · intro message h
    simp only [checkFileExists, h]
    simp

/-- Claim C4 witness: a 500 response is treated as absent, with the
diagnostic warning emitted. -/
theorem c4_exists_prober_witness :
    (checkFileExists w4Env "v" "f.md").found = responseOk 500 ∧
    (500 = 404 → (checkFileExists w4Env "v" "f.md").warns = []) ∧
    (responseOk 500 = false → 500 ≠ 404 →
      (checkFileExists w4Env "v" "f.md").warns =
        ["Unexpected response when checking file existence: " ++ toString 500]) :=
  (c4_exists_prober w4Env "v" "f.md").1 500 "err" rfl

/-- Claim C10: on the daily-note branch the issued requests and the result
are identical for any two note names, all else equal — the note name is
never used there. -/
theorem c10_daily_name_independent (env : Env) (fileContent path vault : String)
    (behavior : Behavior) (hb : behavior = .appendDaily ∨ behavior = .prependDaily)
    (noteName1 noteName2 : String) :
    createNoteViaLocalRestApi env fileContent noteName1 path vault behavior =
      createNoteViaLocalRestApi env fileContent noteName2 path vault behavior := by
  rcases hb with hb | hb <;> subst hb <;>
    by_cases hav : isLocalRestApiAvailable env.settings <;>
      simp [createNoteViaLocalRestApi, hav, resolvePlan]

/-- Claim C10 witness: two different note names produce the same outcome
for append-daily. -/
theorem c10_daily_name_independent_witness :
    createNoteViaLocalRestApi wEnv "body" "name one" "p" "v" Behavior.appendDaily =
      createNoteViaLocalRestApi wEnv "body" "name two" "p" "v" Behavior.appendDaily :=
  c10_daily_name_independent wEnv "body" "p" "v" Behavior.appendDaily (Or.inl rfl)
    "name one" "name two"

/-- Claim C1: for the regular behaviors — append-specific and
prepend-specific probe the exact target once and then issue a POST with
the raw body when absent, or a PATCH with the JSON envelope (position end
respectively start) when present; overwrite issues no probe and exactly
one PUT with the raw body to the same target. -/
theorem c1_regular_behaviors (env : Env) (fileContent noteName path vault : String)
    (hav : isLocalRestApiAvailable env.settings = true) :
    (∀ behavior position,
        behavior = Behavior.appendSpecific ∧ position = "end" ∨
          behavior = Behavior.prependSpecific ∧ position = "start" →
        (createNoteViaLocalRestApi env fileContent noteName path vault behavior).requests =
          [probeRequest env.settings vault
              (normalizeDirPath path ++ sanitizeFileName noteName ++ ".md"),
           if (checkFileExists env vault
                (normalizeDirPath path ++ sanitizeFileName noteName ++ ".md")).found then
             finalRequest env.settings
               (buildUrl env.settings vault
                 (normalizeDirPath path ++ sanitizeFileName noteName ++ ".md"))
               "PATCH" (patchBody fileContent position)
           else
             finalRequest env.settings
               (buildUrl env.settings vault
                 (normalizeDirPath path ++ sanitizeFileName noteName ++ ".md"))
               "POST" fileContent]) ∧
    (createNoteViaLocalRestApi env fileContent noteName path vault Behavior.overwrite).requests =
      [finalRequest env.settings
          (buildUrl env.settings vault
            (normalizeDirPath path ++ sanitizeFileName noteName ++ ".md"))
          "PUT" fileContent] := by
  constructor
  · rintro behavior position (⟨hb, hp⟩ | ⟨hb, hp⟩) <;> subst hb <;> subst hp <;>
      by_cases hf : (checkFileExists env vault
          (normalizeDirPath path ++ sanitizeFileName noteName ++ ".md")).found <;>
        simp [createNoteViaLocalRestApi, hav, resolvePlan, hf, checkFileExists_reqs]
  · simp [createNoteViaLocalRestApi, hav, resolvePlan]

/-- Claim C1 witness: append-specific against an absent target issues the
probe and then a POST with the raw body. -/
theorem c1_regular_behaviors_witness :
    (createNoteViaLocalRestApi wEnv "body" "note" "dir" "v"
        Behavior.appendSpecific).requests =
      [probeRequest wEnv.settings "v"
          (normalizeDirPath "dir" ++ sanitizeFileName "note" ++ ".md"),
       if (checkFileExists wEnv "v"
            (normalizeDirPath "dir" ++ sanitizeFileName "note" ++ ".md")).found then
         finalRequest wEnv.settings
           (buildUrl wEnv.settings "v"
             (normalizeDirPath "dir" ++ sanitizeFileName "note" ++ ".md"))
           "PATCH" (patchBody "body" "end")
       else
         finalRequest wEnv.settings
           (buildUrl wEnv.settings "v"
             (normalizeDirPath "dir" ++ sanitizeFileName "note" ++ ".md"))
           "POST" "body"] :=
  (c1_regular_behaviors wEnv "body" "note" "dir" "v" (by decide)).1
    Behavior.appendSpecific "end" (Or.inl ⟨rfl, rfl⟩)

/-- Claim C2: for the daily behaviors the target is today's UTC calendar
date plus the markdown extension, regardless of the caller-supplied
directory path and note name; it is probed once, then a POST with the full
raw body is issued when absent, or a PATCH with the JSON envelope
(position end for append-daily, start for prepend-daily) when present. -/
theorem c2_daily_behaviors (env : Env) (fileContent noteName path vault : String)
    (behavior : Behavior)
    (hb : behavior = Behavior.appendDaily ∨ behavior = Behavior.prependDaily)
    (hav : isLocalRestApiAvailable env.settings = true) :
    (createNoteViaLocalRestApi env fileContent noteName path vault behavior).requests =
      [probeRequest env.settings vault (env.today ++ ".md"),
       if (checkFileExists env vault (env.today ++ ".md")).found then
         finalRequest env.settings (buildUrl env.settings vault (env.today ++ ".md"))
           "PATCH"
           (patchBody fileContent
             (if behavior = Behavior.appendDaily then "end" else "start"))
       else
         finalRequest env.settings (buildUrl env.settings vault (env.today ++ ".md"))
           "POST" fileContent] := by
  rcases hb with hb | hb <;> subst hb <;>
    by_cases hf : (checkFileExists env vault (env.today ++ ".md")).found <;>
      simp [createNoteViaLocalRestApi, hav, resolvePlan, hf, checkFileExists_reqs]

/-- Claim C2 witness: append-daily against an absent daily note issues the
probe at the date-named target and then a POST with the raw body. -/
theorem c2_daily_behaviors_witness :
    (createNoteViaLocalRestApi wEnv "body" "note" "dir" "v" Behavior.appendDaily).requests =
      [probeRequest wEnv.settings "v" (wEnv.today ++ ".md"),
       if (checkFileExists wEnv "v" (wEnv.today ++ ".md")).found then
         finalRequest wEnv.settings (buildUrl wEnv.settings "v" (wEnv.today ++ ".md"))
           "PATCH"
           (patchBody "body"
             (if Behavior.appendDaily = Behavior.appendDaily then "end" else "start"))
       else
         finalRequest wEnv.settings (buildUrl wEnv.settings "v" (wEnv.today ++ ".md"))
           "POST" "body"] :=
  c2_daily_behaviors wEnv "body" "note" "dir" "v" Behavior.appendDaily (Or.inl rfl) (by decide)

/-- Claim C9: both the connection test and the final mutating request of
the create-note pipeline normalize the fetch outcome identically — 2xx
yields success, any other status yields failure carrying the status and the
response body text, and a thrown transport error yields failure carrying
its message (both embeddings are total functions, so neither throws). -/
theorem c9_outcome_normalization (env : Env) (fileContent noteName path vault : String)
    (behavior : Behavior) (hav : isLocalRestApiAvailable env.settings = true) :
    (testLocalRestApiConnection env).1 =
      specNormalizeOutcome (env.net (rootRequest env.settings)) ∧
    (∃ req,
      (createNoteViaLocalRestApi env fileContent noteName path vault behavior).requests.getLast? =
        some req ∧
      (createNoteViaLocalRestApi env fileContent noteName path vault behavior).result =
        specNormalizeOutcome (env.net req)) := by
  constructor
  · simp only [testLocalRestApiConnection, specNormalizeOutcome]
    rcases h : env.net (rootRequest env.settings) with ⟨s, t⟩ | m
    · simp only [h]
      split_ifs <;> rfl
    · simp [h]
  · refine ⟨finalRequest env.settings
      (resolvePlan env fileContent (normalizeDirPath path) (sanitizeFileName noteName)
        vault behavior).url
      (resolvePlan env fileContent (normalizeDirPath path) (sanitizeFileName noteName)
        vault behavior).method
      (resolvePlan env fileContent (normalizeDirPath path) (sanitizeFileName noteName)
        vault behavior).body, ?_, ?_⟩
    · simp [createNoteViaLocalRestApi, hav, List.getLast?_concat]
    · simp only [createNoteViaLocalRestApi, hav, Bool.not_true, Bool.false_eq_true,
        if_false, specNormalizeOutcome]

/-- Claim C9 witness: with an absent-reporting oracle and overwrite
behavior, both normalizations are exhibited at a concrete input. -/
theorem c9_outcome_normalization_witness :
    (testLocalRestApiConnection wEnv).1 =
      specNormalizeOutcome (wEnv.net (rootRequest wEnv.settings)) ∧
    (∃ req,
      (createNoteViaLocalRestApi wEnv "body" "note" "dir" "v"
          Behavior.overwrite).requests.getLast? = some req ∧
      (createNoteViaLocalRestApi wEnv "body" "note" "dir" "v" Behavior.overwrite).result =
        specNormalizeOutcome (wEnv.net req)) :=
  c9_outcome_normalization wEnv "body" "note" "dir" "v" Behavior.overwrite (by decide)

/-! ### Concrete environment for the C8 end-to-end scenario -/

/-- Concrete configuration for the C8 scenario. -/
def c8Settings : Settings :=
  { localRestApiEnabled := true, localRestApiUrl := "https://host", localRestApiKey := "key" }

/-- Network oracle for the C8 scenario: the probe reports absent (404) and
the write succeeds (204). -/
def c8Net : Request → FetchOutcome := fun r =>
  if r.method = "GET" then FetchOutcome.response 404 "Not Found"
  else FetchOutcome.response 204 ""

/-- Environment for the C8 scenario. -/
def c8Env : Env := ⟨c8Settings, c8Net, "2026-10-12", 7⟩

/-- Claim C8: target URLs are the base plus `/vault/`, the percent-encoded
vault segment (omitted entirely when no vault is configured), and the
percent-encoded file path; in the concrete scenario — create behavior,
body `# Hi`, name `Daily Log`, path `Logs`, vault `Main`, prober reporting
absent — exactly one POST is issued to
`https://host/vault/Main/Logs%2FDaily%20Log.md` with the raw body and the
result is success. -/
theorem c8_end_to_end :
    createNoteViaLocalRestApi c8Env "# Hi" "Daily Log" "Logs" "Main" Behavior.create =
      { result := { success := true, error := none }
        requests :=
          [{ url := "https://host/vault/Main/Logs%2FDaily%20Log.md", method := "GET"
             headers := [("Authorization", "Bearer key")], body := none },
           { url := "https://host/vault/Main/Logs%2FDaily%20Log.md", method := "POST"
             headers := [("Authorization", "Bearer key"), ("Content-Type", "text/markdown")]
             body := some "# Hi" }] } ∧
    buildUrl c8Settings "Main" "Logs/Daily Log.md" =
      "https://host/vault/Main/Logs%2FDaily%20Log.md" ∧
    buildUrl c8Settings "" "Logs/Daily Log.md" =
      "https://host/vault/Logs%2FDaily%20Log.md" := by
  refine ⟨?_, ?_, ?_⟩ <;> decide

/-! ### Concrete environment for the C6 and C7 counterexamples -/

/-- Environment where every request gets a 200 response. -/
def okEnv : Env := ⟨wSettings, fun _ => FetchOutcome.response 200 "ok", "2026-10-12", 7⟩

/-- Claim C6 counterexample: the code chooses the content type by testing
whether the body string starts with a left brace, not by which payload kind
it is — an overwrite whose raw markdown document happens to begin with a
left brace is sent as a PUT with raw body yet carries
Content-Type application/json, where the claim requires text/markdown for
every raw-body request regardless of the document body's content. -/
theorem c6_counterexample :
    (createNoteViaLocalRestApi okEnv "\x7b# data" "note" "" "" Behavior.overwrite).requests =
      [{ url := "https://host/vault/note.md", method := "PUT"
         headers := [("Authorization", "Bearer key"), ("Content-Type", "application/json")]
         body := some "\x7b# data" }] := by
  decide

/-- Claim C6 (amended): the Content-Type header is chosen by whether the
body string starts with a left brace — so every JSON partial-update
envelope gets application/json, and a raw-body request gets text/markdown
exactly when the document body itself does not start with a left brace. -/
theorem c6_content_type (env : Env) (fileContent noteName path vault : String)
    (behavior : Behavior) (hav : isLocalRestApiAvailable env.settings = true) :
    (∀ content position, contentTypeFor (patchBody content position) = "application/json") ∧
    (∀ body, contentTypeFor body =
        if startsWithChar body leftBrace then "application/json" else "text/markdown") ∧
    (∃ req body,
      (createNoteViaLocalRestApi env fileContent noteName path vault behavior).requests.getLast? =
        some req ∧
      req.body = some body ∧
      req.headers = authHeaders env.settings ++ [("Content-Type", contentTypeFor body)]) := by
  refine ⟨?_, fun body => rfl, ?_⟩
  · intro content position
    have hlit : ("\x7b\"content\":" : String).data = leftBrace :: ("\"content\":" : String).data := by
      decide
    have h1 : startsWithChar (patchBody content position) leftBrace = true := by
      unfold patchBody startsWithChar
      rw [String.data_append, String.data_append, String.data_append, String.data_append,
        hlit, List.cons_append]
      simp
    simp [contentTypeFor, h1]
  · refine ⟨finalRequest env.settings
      (resolvePlan env fileContent (normalizeDirPath path) (sanitizeFileName noteName)
        vault behavior).url
      (resolvePlan env fileContent (normalizeDirPath path) (sanitizeFileName noteName)
        vault behavior).method
      (resolvePlan env fileContent (normalizeDirPath path) (sanitizeFileName noteName)
        vault behavior).body,
      (resolvePlan env fileContent (normalizeDirPath path) (sanitizeFileName noteName)
        vault behavior).body, ?_, rfl, rfl⟩
    simp [createNoteViaLocalRestApi, hav, List.getLast?_concat]

/-- Claim C6 witness: the amended content-type rule at a concrete input. -/
theorem c6_content_type_witness :
    (∀ content position, contentTypeFor (patchBody content position) = "application/json") ∧
    (∀ body, contentTypeFor body =
        if startsWithChar body leftBrace then "application/json" else "text/markdown") ∧
    (∃ req body,
      (createNoteViaLocalRestApi wEnv "body" "note" "dir" "v"
          Behavior.prependSpecific).requests.getLast? = some req ∧
      req.body = some body ∧
      req.headers = authHeaders wEnv.settings ++ [("Content-Type", contentTypeFor body)]) :=
  c6_content_type wEnv "body" "note" "dir" "v" Behavior.prependSpecific (by decide)

/-- Claim C7 counterexample: the caller-supplied directory path `a//` is
non-empty and already ends with a slash, so the code leaves it untouched —
the path actually used to form the target ends with two separators, not
exactly one, and the issued request targets `a//note.md`
(percent-encoded `a%2F%2Fnote.md`). -/
theorem c7_counterexample :
    normalizeDirPath "a//" = "a//" ∧
    ("a//" : String).data.reverse.take 2 = ['/', '/'] ∧
    (createNoteViaLocalRestApi okEnv "body" "note" "a//" "" Behavior.overwrite).requests =
      [{ url := "https://host/vault/a%2F%2Fnote.md", method := "PUT"
         headers := [("Authorization", "Bearer key"), ("Content-Type", "text/markdown")]
         body := some "body" }] := by
  refine ⟨?_, ?_, ?_⟩ <;> decide

/-- Claim C7 (amended): before any remote path is built, a non-empty
directory path not already ending in a separator gets exactly one separator
appended, while a path already ending in one or more separators is used
unchanged — so the path actually used always ends with at least one
separator, though duplicates are preserved; and the note base name is
sanitized before the target is formed. -/
theorem c7_path_normalization (env : Env) (fileContent noteName path vault : String)
    (hav : isLocalRestApiAvailable env.settings = true) :
    (path.isEmpty = false → lastCharIs (normalizeDirPath path) '/' = true) ∧
    (path.isEmpty = false → lastCharIs path '/' = false →
      normalizeDirPath path = path ++ "/") ∧
    (lastCharIs path '/' = true → normalizeDirPath path = path) ∧
    ((createNoteViaLocalRestApi env fileContent noteName path vault
        Behavior.overwrite).requests.map Request.url =
      [buildUrl env.settings vault
        (normalizeDirPath path ++ sanitizeFileName noteName ++ ".md")]) := by
  have happ : lastCharIs (path ++ "/") '/' = true := by
    simp [lastCharIs, String.data_append]
  refine ⟨?_, ?_, ?_, ?_⟩
  · intro hne
    by_cases hl : lastCharIs path '/' = true
    · simp [normalizeDirPath, hl]
    · simp only [Bool.not_eq_true] at hl
      simp [normalizeDirPath, hne, hl, happ]
  · intro hne hl
    simp [normalizeDirPath, hne, hl]
  · intro hl
    simp [normalizeDirPath, hl]
  · simp [createNoteViaLocalRestApi, hav, resolvePlan, finalRequest]

/-- Claim C7 witness: the amended normalization facts at a concrete input
whose path lacks a trailing separator. -/
theorem c7_path_normalization_witness :
    (("dir" : String).isEmpty = false →
      lastCharIs (normalizeDirPath "dir") '/' = true) ∧
    (("dir" : String).isEmpty = false → lastCharIs "dir" '/' = false →
      normalizeDirPath "dir" = "dir" ++ "/") ∧
    (lastCharIs "dir" '/' = true → normalizeDirPath "dir" = "dir") ∧
    ((createNoteViaLocalRestApi wEnv "body" "note" "dir" "v"
        Behavior.overwrite).requests.map Request.url =
      [buildUrl wEnv.settings "v"
        (normalizeDirPath "dir" ++ sanitizeFileName "note" ++ ".md")]) :=
  c7_path_normalization wEnv "body" "note" "dir" "v" (by decide)

/-! ### Loop lemmas for the collision-avoidance namer -/

theorem findLoop_past_bound (env : Env) (vault path baseName : String) (counter : Nat)
    (h : ¬ counter < 1000) :
    findLoop env vault path baseName counter =
      (path ++ baseName ++ " " ++ toString env.nowMillis ++ ".md", []) := by
  rw [findLoop]
  simp [h]

theorem findLoop_step (env : Env) (vault path baseName : String) (counter : Nat)
    (h : counter < 1000) :
    findLoop env vault path baseName counter =
      if (checkFileExists env vault (candName path baseName counter)).found then
        ((findLoop env vault path baseName (counter + 1)).1,
         (checkFileExists env vault (candName path baseName counter)).reqs ++
           (findLoop env vault path baseName (counter + 1)).2)
      else
        (candName path baseName counter,
         (checkFileExists env vault (candName path baseName counter)).reqs) := by
  rw [findLoop]
  simp only [h, dite_true, dif_pos, candName]

theorem findLoop_all_present (env : Env) (vault path baseName : String) :
    ∀ n counter, counter + n = 1000 →
      (∀ j, counter ≤ j → j < 1000 →
        (checkFileExists env vault (candName path baseName j)).found = true) →
      findLoop env vault path baseName counter =
        (path ++ baseName ++ " " ++ toString env.nowMillis ++ ".md",
         (List.range' counter n).map
           (fun j => probeRequest env.settings vault (candName path baseName j))) := by
  intro n
  induction n with
  | zero =>
    intro counter hc _
    have h : ¬ counter < 1000 := by omega
    simp [findLoop_past_bound env vault path baseName counter h]
  | succ n ih =>
    intro counter hc hall
    have h : counter < 1000 := by omega
    have hf := hall counter le_rfl h
    rw [findLoop_step env vault path baseName counter h]
    simp only [hf, if_true]
    rw [ih (counter + 1) (by omega) (fun j hj hj2 => hall j (by omega) hj2),
      checkFileExists_reqs, List.range'_succ]
    simp

theorem findLoop_finds (env : Env) (vault path baseName : String) :
    ∀ n counter k, counter + n = 1000 → counter ≤ k → k < 1000 →
      (∀ j, counter ≤ j → j < k →
        (checkFileExists env vault (candName path baseName j)).found = true) →
      (checkFileExists env vault (candName path baseName k)).found = false →
      findLoop env vault path baseName counter =
        (candName path baseName k,
         (List.range' counter (k - counter + 1)).map
           (fun j => probeRequest env.settings vault (candName path baseName j))) := by
  intro n
  induction n with
  | zero =>
    intro counter k hc hck hk _ _
    omega
  | succ n ih =>
    intro counter k hc hck hk hall hkf
    have h : counter < 1000 := by omega
    rw [findLoop_step env vault path baseName counter h]
    by_cases hek : counter = k
    · subst hek
      simp only [hkf, Bool.false_eq_true, if_false]
      rw [checkFileExists_reqs]
      have h1 : counter - counter + 1 = 1 := by omega
      rw [h1, List.range'_succ]
      simp
    · have hck2 : counter < k := by omega
      have hf := hall counter le_rfl hck2
      simp only [hf, if_true]
      rw [ih (counter + 1) k (by omega) (by omega) hk
        (fun j hj hj2 => hall j (by omega) hj2) hkf]
      rw [checkFileExists_reqs]
      have harith : k - counter + 1 = (k - (counter + 1) + 1) + 1 := by omega
      rw [harith]
      simp [List.range'_succ]

theorem findLoop_length (env : Env) (vault path baseName : String) :
    ∀ n counter, counter + n = 1000 →
      (findLoop env vault path baseName counter).2.length ≤ n := by
  intro n
  induction n with
  | zero =>
    intro counter hc
    have h : ¬ counter < 1000 := by omega
    simp [findLoop_past_bound env vault path baseName counter h]
  | succ n ih =>
    intro counter hc
    have h : counter < 1000 := by omega
    rw [findLoop_step env vault path baseName counter h]
    by_cases hf : (checkFileExists env vault (candName path baseName counter)).found
    · have hlen := ih (counter + 1) (by omega)
      simp only [hf, if_true]
      simp [checkFileExists_reqs]
      omega
    · simp [hf, checkFileExists_reqs]

/-- Claim C5: the collision-avoidance namer returns the unsuffixed
candidate immediately when absent; otherwise it probes suffixed candidates
in increasing order and returns the first reported absent (for any first
absent suffix k between 1 and 999); if the unsuffixed candidate and all 999
suffixed candidates are present, it returns the timestamp-suffixed name
with no further probe — having issued exactly the 1000 candidate probes —
and in every case it issues at most 1000 probes. -/
theorem c5_collision_avoidance (env : Env) (vault path baseName : String) :
    ((checkFileExists env vault (path ++ baseName ++ ".md")).found = false →
      findAvailableFileName env vault path baseName =
        (path ++ baseName ++ ".md",
         [probeRequest env.settings vault (path ++ baseName ++ ".md")])) ∧
    (∀ k, 1 ≤ k → k ≤ 999 →
      (checkFileExists env vault (path ++ baseName ++ ".md")).found = true →
      (∀ j, 1 ≤ j → j < k →
        (checkFileExists env vault (candName path baseName j)).found = true) →
      (checkFileExists env vault (candName path baseName k)).found = false →
      findAvailableFileName env vault path baseName =
        (candName path baseName k,
         probeRequest env.settings vault (path ++ baseName ++ ".md") ::
           (List.range' 1 k).map
             (fun j => probeRequest env.settings vault (candName path baseName j)))) ∧
    ((checkFileExists env vault (path ++ baseName ++ ".md")).found = true →
      (∀ j, 1 ≤ j → j ≤ 999 →
        (checkFileExists env vault (candName path baseName j)).found = true) →
      findAvailableFileName env vault path baseName =
        (path ++ baseName ++ " " ++ toString env.nowMillis ++ ".md",
         probeRequest env.settings vault (path ++ baseName ++ ".md") ::
           (List.range' 1 999).map
             (fun j => probeRequest env.settings vault (candName path baseName j)))) ∧
    (findAvailableFileName env vault path baseName).2.length ≤ 1000 := by
  refine ⟨?_, ?_, ?_, ?_⟩
  · intro hf
    simp [findAvailableFileName, hf, checkFileExists_reqs]
  · intro k h1 h999 hf hall hkf
    simp only [findAvailableFileName, hf, if_true]
    rw [findLoop_finds env vault path baseName 999 1 k (by omega) h1 (by omega) hall hkf,
      checkFileExists_reqs]
    have hk1 : k - 1 + 1 = k := by omega
    rw [hk1]
    simp
  · intro hf hall
    simp only [findAvailableFileName, hf, if_true]
    rw [findLoop_all_present env vault path baseName 999 1 (by omega)
      (fun j hj hj2 => hall j hj (by omega)),
      checkFileExists_reqs]
    simp
  · unfold findAvailableFileName
    by_cases hf : (checkFileExists env vault (path ++ baseName ++ ".md")).found
    · have hlen := findLoop_length env vault path baseName 999 1 (by omega)
      simp only [hf, if_true]
      simp [checkFileExists_reqs]
      omega
    · simp [hf, checkFileExists_reqs]

/-- Claim C5 witness: against an absent-reporting oracle the unsuffixed
candidate is returned after one probe. -/
theorem c5_collision_avoidance_witness :
    findAvailableFileName wEnv "v" "p/" "n" =
      ("p/" ++ "n" ++ ".md",
       [probeRequest wEnv.settings "v" ("p/" ++ "n" ++ ".md")]) :=
  (c5_collision_avoidance wEnv "v" "p/" "n").1 (by decide)
